import Mathlib

/-!
# HeroForge AI — verification of the core client workflow

Shallow embedding of the repository's core logic:

* `src/services/geminiService.ts` — the edit-request client
  (`editImageWithGemini`) and the data-URL payload helper
  (`extractBase64Data`);
* the application component (types and the `handleFileUpload`,
  `handleGenerate` transition handlers over `AppState`).

Pure data is embedded directly; the asynchronous parts (file read,
API call) are embedded by passing their outcome as an explicit
argument, so every handler is a pure function from the pre-state and
the outcome to the post-state.
-/

namespace HeroForge

/-! ## JavaScript string helpers

`extractBase64Data` in the source is `dataUrl.split(',')[1]`.
JavaScript `split(',')` cuts the string at *every* comma; index `[1]`
is the field between the first and the second comma (and `undefined`
when the string has no comma), so the embedding returns an `Option`.
-/

/-- Embedding of JavaScript `s.split(',')` on the character list of
`s`: the list of maximal comma-free fields.  Like the JavaScript
original it never returns the empty list (`"".split(',')` is
`[""]`). -/
def splitCommaChars : List Char → List (List Char)
  | [] => [[]]
  | c :: rest =>
    match splitCommaChars rest with
    | [] => []
    | h :: t => if c = ',' then [] :: h :: t else (c :: h) :: t

/-- `extractBase64Data` from `src/services/geminiService.ts`:
`dataUrl.split(',')[1]`, i.e. the second comma-separated field,
`none` standing for JavaScript `undefined`. -/
def extractBase64Data (dataUrl : String) : Option String :=
  (splitCommaChars dataUrl.data)[1]?.map String.mk

/-- The spec's description of `extractPayload`, taken verbatim from
its words: "returns the substring after the first comma" — the entire
suffix of the input after the first comma (`none` when there is no
comma).  Kept separate from `extractBase64Data` so the two can be
compared. -/
def suffixAfterFirstComma : List Char → Option (List Char)
  | [] => none
  | c :: rest => if c = ',' then some rest else suffixAfterFirstComma rest

theorem splitCommaChars_ne_nil (l : List Char) : splitCommaChars l ≠ [] := by
  induction l with
  | nil => simp [splitCommaChars]
  | cons c rest ih =>
    rcases h : splitCommaChars rest with _ | ⟨h₀, t⟩
    · exact absurd h ih
    · simp only [splitCommaChars, h]
      split <;> simp

theorem splitCommaChars_of_no_comma {l : List Char} (h : ',' ∉ l) :
    splitCommaChars l = [l] := by
  induction l with
  | nil => rfl
  | cons c rest ih =>
    simp only [List.mem_cons, not_or] at h
    have hc : ¬ c = ',' := fun hc => h.1 hc.symm
    simp [splitCommaChars, ih h.2, hc]

theorem splitCommaChars_append {pre post : List Char} (h : ',' ∉ pre) :
    splitCommaChars (pre ++ ',' :: post) = pre :: splitCommaChars post := by
  induction pre with
  | nil =>
    rcases hs : splitCommaChars post with _ | ⟨h₀, t⟩
    · exact absurd hs (splitCommaChars_ne_nil post)
    · simp [splitCommaChars, hs]
  | cons c rest ih =>
    simp only [List.mem_cons, not_or] at h
    have hc : ¬ c = ',' := fun hc => h.1 hc.symm
    simp [splitCommaChars, ih h.2, hc]

theorem suffixAfterFirstComma_append {pre post : List Char} (h : ',' ∉ pre) :
    suffixAfterFirstComma (pre ++ ',' :: post) = some post := by
  induction pre with
  | nil => simp [suffixAfterFirstComma]
  | cons c rest ih =>
    simp only [List.mem_cons, not_or] at h
    have hc : ¬ c = ',' := fun hc => h.1 hc.symm
    simp [suffixAfterFirstComma, ih h.2, hc]

/-- On a string with a single comma, `extractBase64Data` returns the
suffix after it. -/
theorem extractBase64Data_single_comma {pre post : List Char}
    (hpre : ',' ∉ pre) (hpost : ',' ∉ post) :
    extractBase64Data (String.mk (pre ++ ',' :: post)) = some (String.mk post) := by
  simp [extractBase64Data, splitCommaChars_append hpre,
    splitCommaChars_of_no_comma hpost]

/-- JavaScript `s.trim()`: drops whitespace from both ends of the
string. -/
def jsTrim (s : String) : String :=
  String.mk (((s.data.dropWhile Char.isWhitespace).reverse.dropWhile
    Char.isWhitespace).reverse)

/-- JavaScript `x || d` on a string-or-undefined value: the default is
used when the value is `undefined` or the empty string (both falsy). -/
def jsOr (o : Option String) (d : String) : String :=
  match o with
  | none => d
  | some s => if s = "" then d else s

/-! ## The edit-request client (`src/services/geminiService.ts`)

The API response is embedded structurally: a response carries
candidates, the first candidate's content carries an optional list of
parts, and each part optionally carries inline data (bytes already
base64-encoded by the transport, plus an optional mime type) and
optionally text.  The surrounding SDK call is embedded by passing the
outcome as an argument: `Except.error m` stands for a transport/SDK
throw with message `m`, `Except.ok r` for a delivered response. -/

structure InlineData where
  data : String
  mimeType : Option String
deriving Repr, DecidableEq

structure Part where
  inlineData : Option InlineData
  text : Option String
deriving Repr, DecidableEq

structure Content where
  parts : Option (List Part)
deriving Repr, DecidableEq

structure Candidate where
  content : Content
deriving Repr, DecidableEq

structure ApiResponse where
  candidates : List Candidate
deriving Repr, DecidableEq

/-- The scan loop of `editImageWithGemini`: the data URL built from
the first part carrying `inlineData`, with the mime type defaulting to
`image/png` when absent or empty (JavaScript `mimeType || 'image/png'`). -/
def findImageUrl : List Part → Option String
  | [] => none
  | p :: rest =>
    match p.inlineData with
    | some d => some ("data:" ++ jsOr d.mimeType "image/png" ++ ";base64," ++ d.data)
    | none => findImageUrl rest

/-- `content.parts?.find(p => p.text)?.text`: the text of the first
part with truthy (present and non-empty) text. -/
def findText : List Part → Option String
  | [] => none
  | p :: rest =>
    match p.text with
    | some t => if t = "" then findText rest else some t
    | none => findText rest

/-- `editImageWithGemini` from `src/services/geminiService.ts`, as a
function of the call outcome.  Every `throw` inside the `try` block is
re-thrown by the `catch` as `error.message || "Failed to edit image
using Gemini."`; since every inner message is non-empty this preserves
it, so only a transport error (`Except.error`) goes through `jsOr`. -/
def editImageWithGemini (base64Image mimeType prompt : String)
    (outcome : Except String ApiResponse) : Except String String :=
  match outcome with
  | .error m => .error (jsOr (some m) "Failed to edit image using Gemini.")
  | .ok resp =>
    match resp.candidates with
    | [] => .error "No response candidates returned from Gemini."
    | c :: _ =>
      let parts := c.content.parts.getD []
      match findImageUrl parts with
      | some url => .ok url
      | none =>
        match findText parts with
        | some t => .error ("Model returned text instead of image: " ++ t)
        | none => .error "Model did not return a valid image."

/-! ## The application state (types module and `App` component) -/

/-- `GeneratedImage` from the types module. -/
structure GeneratedImage where
  imageUrl : String
  prompt : String
  timestamp : Nat
deriving Repr, DecidableEq

/-- `AppState` from the types module.  `originalImage = none` embeds
the `null` initial value; `error = none` embeds `error: null`. -/
structure AppState where
  originalImage : Option String
  originalMimeType : String
  isGenerating : Bool
  generatedImage : Option GeneratedImage
  error : Option String
deriving Repr, DecidableEq

/-- The initial state of the `useState` hook (also the state
`handleReset` restores). -/
def initialState : AppState :=
  { originalImage := none
    originalMimeType := ""
    isGenerating := false
    generatedImage := none
    error := none }

def MAX_FILE_SIZE_MB : Nat := 5

def ALLOWED_TYPES : List String := ["image/jpeg", "image/png", "image/webp"]

/-- An uploaded `File`: its mime type string and its size in bytes. -/
structure JsFile where
  type : String
  size : Nat
deriving Repr, DecidableEq

/-- Outcome of `FileReader.readAsDataURL`: `success dataUrl` embeds the
`onloadend` path with `reader.result = dataUrl`, `failure` the
`onerror` path. -/
inductive ReadOutcome where
  | success (dataUrl : String)
  | failure
deriving Repr, DecidableEq

/-- `handleFileUpload` from the `App` component, as a function of the
pre-state, the current prompt, the selected file, and the read
outcome; returns the post-state and the post-prompt (the handler
pre-fills the prompt on success when it was empty). -/
def handleFileUpload (s : AppState) (prompt : String) (file : JsFile)
    (read : ReadOutcome) : AppState × String :=
  if file.type ∉ ALLOWED_TYPES then
    ({ s with error := some "Invalid file type. Please upload JPEG, PNG, or WebP." }, prompt)
  else if file.size > MAX_FILE_SIZE_MB * 1024 * 1024 then
    ({ s with error := some ("File too large. Maximum size is " ++ toString MAX_FILE_SIZE_MB ++ "MB.") }, prompt)
  else
    match read with
    | .success result =>
      ({ originalImage := some result
         originalMimeType := file.type
         isGenerating := false
         generatedImage := none
         error := none },
       if prompt = "" then "Add a futuristic neon aesthetic" else prompt)
    | .failure => ({ s with error := some "Failed to read file." }, prompt)

/-- The first `setState` of `handleGenerate`, run before the API call:
`{ ...prev, isGenerating: true, error: null }`. -/
def generateStart (s : AppState) : AppState :=
  { s with isGenerating := true, error := none }

/-- `handleGenerate` from the `App` component, as a function of the
pre-state, the prompt, the clock (`Date.now()`), and the API-call
outcome.  The guard `!state.originalImage || !prompt.trim()` is the
JavaScript truthiness test, false for `null` and for the empty string.
The returned flag records whether the edit request was issued. -/
def handleGenerate (s : AppState) (prompt : String) (now : Nat)
    (outcome : Except String ApiResponse) : AppState × Bool :=
  if (s.originalImage.getD "") = "" ∨ jsTrim prompt = "" then (s, false)
  else
    let base64Data := (extractBase64Data (s.originalImage.getD "")).getD ""
    let s1 := generateStart s
    match editImageWithGemini base64Data s.originalMimeType prompt outcome with
    | .ok url =>
      ({ s1 with
          isGenerating := false
          generatedImage := some { imageUrl := url, prompt := prompt, timestamp := now } },
       true)
    | .error m =>
      ({ s1 with
          isGenerating := false
          error := some (jsOr (some m) "Something went wrong while generating the image.") },
       true)

/-! ## Base64 and `toDataUrl` (modelled from the spec)

`toDataUrl` is `FileReader.readAsDataURL`, a browser API not present
in the repository's sources; the spec describes it as producing
`data:<mimeType>;base64,<payload>` with `<payload>` the base64
encoding of the file's bytes. -/

/-- The 64 characters of the standard base64 alphabet. -/
def base64Alphabet : List Char :=
  ['A','B','C','D','E','F','G','H','I','J','K','L','M','N','O','P',
   'Q','R','S','T','U','V','W','X','Y','Z',
   'a','b','c','d','e','f','g','h','i','j','k','l','m','n','o','p',
   'q','r','s','t','u','v','w','x','y','z',
   '0','1','2','3','4','5','6','7','8','9','+','/']

/-- The base64 character of a 6-bit group. -/
def b64c (n : Nat) : Char := base64Alphabet.getD n 'A'

/-- Standard base64 encoding of a byte list (each byte a `Nat < 256`),
with `=` padding. -/
def base64Encode : List Nat → List Char
  | [] => []
  | [b1] => [b64c (b1 / 4), b64c (b1 % 4 * 16), '=', '=']
  | [b1, b2] => [b64c (b1 / 4), b64c (b1 % 4 * 16 + b2 / 16), b64c (b2 % 16 * 4), '=']
  | b1 :: b2 :: b3 :: rest =>
    b64c (b1 / 4) :: b64c (b1 % 4 * 16 + b2 / 16) ::
    b64c (b2 % 16 * 4 + b3 / 64) :: b64c (b3 % 64) :: base64Encode rest

/-- Modelled from the spec: `toDataUrl` (the repository reads files
with `FileReader.readAsDataURL`, whose implementation is not in the
sources).  Per the spec's glossary a data URL encodes binary content
as `data:<mimeType>;base64,<payload>`, with the payload the base64
encoding of the bytes. -/
def toDataUrl (mimeType : String) (bytes : List Nat) : String :=
  String.mk ("data:".data ++ mimeType.data ++ ";base64".data ++ ',' :: base64Encode bytes)

/-! ## Supporting lemmas -/

theorem jsOr_ne_empty (o : Option String) (d : String) (hd : d ≠ "") :
    jsOr o d ≠ "" := by
  match o with
  | none => exact hd
  | some s =>
    by_cases hs : s = "" <;> simp [jsOr, hs, hd]

theorem b64c_mem (n : Nat) : b64c n ∈ base64Alphabet := by
  rw [b64c, List.getD_eq_getElem?_getD]
  cases h : base64Alphabet[n]? with
  | none => simp only [Option.getD_none]; decide
  | some c =>
    simp only [Option.getD_some]
    exact List.getElem?_mem h

theorem base64Encode_chars {l : List Nat} {c : Char} (hc : c ∈ base64Encode l) :
    c ∈ base64Alphabet ∨ c = '=' := by
  induction l using base64Encode.induct with
  | case1 => simp [base64Encode] at hc
  | case2 b1 =>
    simp only [base64Encode, List.mem_cons, List.not_mem_nil, or_false] at hc
    rcases hc with h | h | h | h
    · exact Or.inl (h ▸ b64c_mem _)
    · exact Or.inl (h ▸ b64c_mem _)
    · exact Or.inr h
    · exact Or.inr h
  | case3 b1 b2 =>
    simp only [base64Encode, List.mem_cons, List.not_mem_nil, or_false] at hc
    rcases hc with h | h | h | h
    · exact Or.inl (h ▸ b64c_mem _)
    · exact Or.inl (h ▸ b64c_mem _)
    · exact Or.inl (h ▸ b64c_mem _)
    · exact Or.inr h
  | case4 b1 b2 b3 rest ih =>
    simp only [base64Encode, List.mem_cons] at hc
    rcases hc with h | h | h | h | h
    · exact Or.inl (h ▸ b64c_mem _)
    · exact Or.inl (h ▸ b64c_mem _)
    · exact Or.inl (h ▸ b64c_mem _)
    · exact Or.inl (h ▸ b64c_mem _)
    · exact ih h

theorem comma_notMem_base64Encode (l : List Nat) : ',' ∉ base64Encode l := by
  intro h
  rcases base64Encode_chars h with h1 | h1
  · revert h1; decide
  · exact absurd h1 (by decide)

theorem editImageWithGemini_error_ne_empty {b mt p m : String}
    {o : Except String ApiResponse}
    (h : editImageWithGemini b mt p o = .error m) : m ≠ "" := by
  match o with
  | .error m' =>
    simp only [editImageWithGemini, Except.error.injEq] at h
    exact h ▸ jsOr_ne_empty _ _ (by decide)
  | .ok resp =>
    simp only [editImageWithGemini] at h
    match hr : resp.candidates with
    | [] =>
      rw [hr] at h
      simp only [Except.error.injEq] at h
      exact h ▸ (by decide)
    | c :: cs =>
      rw [hr] at h
      simp only at h
      match hi : findImageUrl (c.content.parts.getD []) with
      | some url => rw [hi] at h; simp at h
      | none =>
        rw [hi] at h
        match ht : findText (c.content.parts.getD []) with
        | some t =>
          rw [ht] at h
          simp only [Except.error.injEq] at h
          subst h
          intro he
          have hl := congrArg String.length he
          simp only [String.length_append] at hl
          have h1 : ("Model returned text instead of image: ").length = 38 := rfl
          have h2 : ("" : String).length = 0 := rfl
          omega
        | none =>
          rw [ht] at h
          simp only [Except.error.injEq] at h
          exact h ▸ (by decide)

/-- Reduction of `handleGenerate` when an attempt actually starts. -/
theorem handleGenerate_active (s : AppState) (prompt : String) (now : Nat)
    (outcome : Except String ApiResponse)
    (himg : s.originalImage.getD "" ≠ "") (hp : jsTrim prompt ≠ "") :
    handleGenerate s prompt now outcome =
      match editImageWithGemini ((extractBase64Data (s.originalImage.getD "")).getD "")
          s.originalMimeType prompt outcome with
      | .ok url =>
        ({ generateStart s with
            isGenerating := false
            generatedImage := some { imageUrl := url, prompt := prompt, timestamp := now } },
         true)
      | .error m =>
        ({ generateStart s with
            isGenerating := false
            error := some (jsOr (some m) "Something went wrong while generating the image.") },
         true) := by
  simp [handleGenerate, himg, hp]

/-- The scan returns the image URL built from the first part carrying
inline data. -/
theorem findImageUrl_first {pre : List Part} {part : Part} {rest : List Part}
    {d : InlineData} (hpre : ∀ q ∈ pre, q.inlineData = none)
    (hpart : part.inlineData = some d) :
    findImageUrl (pre ++ part :: rest) =
      some ("data:" ++ jsOr d.mimeType "image/png" ++ ";base64," ++ d.data) := by
  induction pre with
  | nil => simp [findImageUrl, hpart]
  | cons q qs ih =>
    have hq : q.inlineData = none := hpre q (List.mem_cons_self q qs)
    simp only [List.cons_append, findImageUrl, hq]
    exact ih fun r hr => hpre r (List.mem_cons_of_mem q hr)

/-! ## Claims -/

/-- C5: uploading a file whose mime type is outside the allow-list
sets the (non-empty) invalid-type error and leaves everything else —
in particular the source image — unchanged; uploading an allowed-type
file larger than 5 MB sets the (non-empty) size-limit error and leaves
everything else unchanged. -/
theorem upload_invalid_sets_error_only (s : AppState) (prompt : String)
    (file : JsFile) (read : ReadOutcome) :
    (file.type ∉ ALLOWED_TYPES →
      handleFileUpload s prompt file read =
        ({ s with error := some "Invalid file type. Please upload JPEG, PNG, or WebP." }, prompt) ∧
      "Invalid file type. Please upload JPEG, PNG, or WebP." ≠ "") ∧
    (file.type ∈ ALLOWED_TYPES → file.size > MAX_FILE_SIZE_MB * 1024 * 1024 →
      handleFileUpload s prompt file read =
        ({ s with error := some "File too large. Maximum size is 5MB." }, prompt) ∧
      "File too large. Maximum size is 5MB." ≠ "") := by
  constructor
  · intro htype
    refine ⟨?_, by decide⟩
    simp [handleFileUpload, htype]
  · intro htype hsize
    refine ⟨?_, by decide⟩
    simp only [handleFileUpload, if_neg (not_not_intro htype), if_pos hsize]
    rfl

theorem upload_invalid_sets_error_only_witness :
    (("image/gif" : String) ∉ ALLOWED_TYPES ∧
      handleFileUpload initialState "" ⟨"image/gif", 10⟩ ReadOutcome.failure =
        ({ initialState with
            error := some "Invalid file type. Please upload JPEG, PNG, or WebP." }, "")) ∧
    (("image/png" : String) ∈ ALLOWED_TYPES ∧ 6 * 1024 * 1024 > MAX_FILE_SIZE_MB * 1024 * 1024 ∧
      handleFileUpload initialState "" ⟨"image/png", 6 * 1024 * 1024⟩ ReadOutcome.failure =
        ({ initialState with error := some "File too large. Maximum size is 5MB." }, "")) :=
  ⟨⟨by decide,
    ((upload_invalid_sets_error_only initialState "" ⟨"image/gif", 10⟩
        ReadOutcome.failure).1 (by decide)).1⟩,
   ⟨by decide, by decide,
    ((upload_invalid_sets_error_only initialState "" ⟨"image/png", 6 * 1024 * 1024⟩
        ReadOutcome.failure).2 (by decide) (by decide)).1⟩⟩

/-- C6: for an allowed-type file within the size limit whose read
succeeds, the post-state has the source image and its mime type
populated and the error, generated result, and in-flight flag all
cleared (the prompt is pre-filled when it was empty). -/
theorem upload_valid_populates_source (s : AppState) (prompt : String)
    (file : JsFile) (url : String)
    (htype : file.type ∈ ALLOWED_TYPES)
    (hsize : file.size ≤ MAX_FILE_SIZE_MB * 1024 * 1024) :
    handleFileUpload s prompt file (ReadOutcome.success url) =
      ({ originalImage := some url
         originalMimeType := file.type
         isGenerating := false
         generatedImage := none
         error := none },
       if prompt = "" then "Add a futuristic neon aesthetic" else prompt) := by
  simp only [handleFileUpload, if_neg (not_not_intro htype),
    if_neg (Nat.not_lt.mpr hsize)]

theorem upload_valid_populates_source_witness :
    ("image/jpeg" : String) ∈ ALLOWED_TYPES ∧ 100 ≤ MAX_FILE_SIZE_MB * 1024 * 1024 ∧
    handleFileUpload initialState "edit it" ⟨"image/jpeg", 100⟩
        (ReadOutcome.success "data:image/jpeg;base64,QUJD") =
      ({ originalImage := some "data:image/jpeg;base64,QUJD"
         originalMimeType := "image/jpeg"
         isGenerating := false
         generatedImage := none
         error := none },
       if "edit it" = "" then "Add a futuristic neon aesthetic" else "edit it") :=
  ⟨by decide, by decide,
   upload_valid_populates_source initialState "edit it" ⟨"image/jpeg", 100⟩
     "data:image/jpeg;base64,QUJD" (by decide) (by decide)⟩

/-- C10: when a file both has a disallowed mime type and exceeds the
5 MB limit, the type check runs first, so the invalid-file-type error
is reported and the size-limit error is never shown. -/
theorem upload_type_error_precedes_size (s : AppState) (prompt : String)
    (file : JsFile) (read : ReadOutcome)
    (htype : file.type ∉ ALLOWED_TYPES)
    (hsize : file.size > MAX_FILE_SIZE_MB * 1024 * 1024) :
    (handleFileUpload s prompt file read).1.error =
      some "Invalid file type. Please upload JPEG, PNG, or WebP." ∧
    (handleFileUpload s prompt file read).1.error ≠
      some "File too large. Maximum size is 5MB." := by
  have h : handleFileUpload s prompt file read =
      ({ s with error := some "Invalid file type. Please upload JPEG, PNG, or WebP." }, prompt) := by
    simp [handleFileUpload, htype]
  rw [h]
  refine ⟨rfl, ?_⟩
  intro hc
  exact absurd (Option.some.inj hc) (by decide)

theorem upload_type_error_precedes_size_witness :
    ("image/gif" : String) ∉ ALLOWED_TYPES ∧
    6 * 1024 * 1024 > MAX_FILE_SIZE_MB * 1024 * 1024 ∧
    ((handleFileUpload initialState "" ⟨"image/gif", 6 * 1024 * 1024⟩
        ReadOutcome.failure).1.error =
      some "Invalid file type. Please upload JPEG, PNG, or WebP." ∧
     (handleFileUpload initialState "" ⟨"image/gif", 6 * 1024 * 1024⟩
        ReadOutcome.failure).1.error ≠
      some "File too large. Maximum size is 5MB.") :=
  ⟨by decide, by decide,
   upload_type_error_precedes_size initialState "" ⟨"image/gif", 6 * 1024 * 1024⟩
     ReadOutcome.failure (by decide) (by decide)⟩

/-- C9: when no source image is present, or the prompt trims to the
empty string, `handleGenerate` is a no-op: the state is returned
unchanged and no edit request is issued (the returned flag is
`false`), whatever the API outcome would have been. -/
theorem generate_noop_when_absent_or_blank (s : AppState) (prompt : String)
    (now : Nat) (outcome : Except String ApiResponse)
    (h : s.originalImage = none ∨ jsTrim prompt = "") :
    handleGenerate s prompt now outcome = (s, false) := by
  rcases h with h | h <;> simp [handleGenerate, h]

theorem generate_noop_when_absent_or_blank_witness :
    (initialState.originalImage = none ∨ jsTrim "edit" = "") ∧
    handleGenerate initialState "edit" 0 (Except.error "boom") = (initialState, false) :=
  ⟨Or.inl rfl,
   generate_noop_when_absent_or_blank initialState "edit" 0 (Except.error "boom")
     (Or.inl rfl)⟩

/-- A state as produced by a successful upload: a source image and its
mime type, nothing else set. -/
def uploadedState : AppState :=
  { originalImage := some "data:image/png;base64,QUJD"
    originalMimeType := "image/png"
    isGenerating := false
    generatedImage := none
    error := none }

/-- C7: whenever the edit-request client fails — with any error
message — the generate attempt ends with the in-flight flag cleared,
the error populated with exactly that message, and the source image
and its mime type untouched. -/
theorem generate_failure_clears_inflight_preserves_source (s : AppState)
    (prompt : String) (now : Nat) (outcome : Except String ApiResponse) (m : String)
    (himg : s.originalImage.getD "" ≠ "") (hp : jsTrim prompt ≠ "")
    (herr : editImageWithGemini ((extractBase64Data (s.originalImage.getD "")).getD "")
        s.originalMimeType prompt outcome = .error m) :
    (handleGenerate s prompt now outcome).1.isGenerating = false ∧
    (handleGenerate s prompt now outcome).1.error = some m ∧
    (handleGenerate s prompt now outcome).1.error ≠ none ∧
    (handleGenerate s prompt now outcome).1.originalImage = s.originalImage ∧
    (handleGenerate s prompt now outcome).1.originalMimeType = s.originalMimeType := by
  have hm : m ≠ "" := editImageWithGemini_error_ne_empty herr
  rw [handleGenerate_active s prompt now outcome himg hp, herr]
  simp [generateStart, jsOr, hm]

theorem generate_failure_clears_inflight_preserves_source_witness :
    uploadedState.originalImage.getD "" ≠ "" ∧ jsTrim "make it neon" ≠ "" ∧
    editImageWithGemini ((extractBase64Data (uploadedState.originalImage.getD "")).getD "")
        uploadedState.originalMimeType "make it neon" (Except.error "boom") =
      .error "boom" ∧
    ((handleGenerate uploadedState "make it neon" 7 (Except.error "boom")).1.isGenerating = false ∧
     (handleGenerate uploadedState "make it neon" 7 (Except.error "boom")).1.error = some "boom" ∧
     (handleGenerate uploadedState "make it neon" 7 (Except.error "boom")).1.error ≠ none ∧
     (handleGenerate uploadedState "make it neon" 7 (Except.error "boom")).1.originalImage =
       uploadedState.originalImage ∧
     (handleGenerate uploadedState "make it neon" 7 (Except.error "boom")).1.originalMimeType =
       uploadedState.originalMimeType) :=
  ⟨by decide, by decide, rfl,
   generate_failure_clears_inflight_preserves_source uploadedState "make it neon" 7
     (Except.error "boom") "boom" (by decide) (by decide) rfl⟩

/-- C3: when the API response delivers candidates but no inline-image
part, the client fails — with `Model returned text instead of image:
<text>` when a (non-empty) text part exists, with `Model did not
return a valid image.` otherwise — and the generate attempt surfaces
exactly that message as the state error. -/
theorem generate_surfaces_no_image_errors (s : AppState) (prompt : String)
    (now : Nat) (resp : ApiResponse) (c : Candidate) (cs : List Candidate)
    (himg : s.originalImage.getD "" ≠ "") (hp : jsTrim prompt ≠ "")
    (hc : resp.candidates = c :: cs)
    (hno : findImageUrl (c.content.parts.getD []) = none) :
    (∀ t, findText (c.content.parts.getD []) = some t →
      editImageWithGemini ((extractBase64Data (s.originalImage.getD "")).getD "")
          s.originalMimeType prompt (Except.ok resp) =
        .error ("Model returned text instead of image: " ++ t) ∧
      (handleGenerate s prompt now (Except.ok resp)).1.error =
        some ("Model returned text instead of image: " ++ t)) ∧
    (findText (c.content.parts.getD []) = none →
      editImageWithGemini ((extractBase64Data (s.originalImage.getD "")).getD "")
          s.originalMimeType prompt (Except.ok resp) =
        .error "Model did not return a valid image." ∧
      (handleGenerate s prompt now (Except.ok resp)).1.error =
        some "Model did not return a valid image.") := by
  constructor
  · intro t ht
    have hedit : editImageWithGemini
        ((extractBase64Data (s.originalImage.getD "")).getD "")
        s.originalMimeType prompt (Except.ok resp) =
        .error ("Model returned text instead of image: " ++ t) := by
      simp [editImageWithGemini, hc, hno, ht]
    refine ⟨hedit, ?_⟩
    have hm := editImageWithGemini_error_ne_empty hedit
    rw [handleGenerate_active s prompt now (Except.ok resp) himg hp, hedit]
    simp [generateStart, jsOr, hm]
  · intro ht
    have hedit : editImageWithGemini
        ((extractBase64Data (s.originalImage.getD "")).getD "")
        s.originalMimeType prompt (Except.ok resp) =
        .error "Model did not return a valid image." := by
      simp [editImageWithGemini, hc, hno, ht]
    refine ⟨hedit, ?_⟩
    rw [handleGenerate_active s prompt now (Except.ok resp) himg hp, hedit]
    simp [generateStart, jsOr]

/-- The single text part of `textOnlyResponse`. -/
def textOnlyPart : Part := { inlineData := none, text := some "cannot do that" }

/-- A response whose only content part is text. -/
def textOnlyResponse : ApiResponse :=
  { candidates := [{ content := { parts := some [textOnlyPart] } }] }

theorem generate_surfaces_no_image_errors_witness :
    uploadedState.originalImage.getD "" ≠ "" ∧ jsTrim "make it neon" ≠ "" ∧
    textOnlyResponse.candidates =
      ({ content := { parts := some [textOnlyPart] } } : Candidate) :: [] ∧
    findImageUrl (({ parts := some [textOnlyPart] } : Content).parts.getD []) = none ∧
    findText (({ parts := some [textOnlyPart] } : Content).parts.getD []) =
      some "cannot do that" ∧
    (handleGenerate uploadedState "make it neon" 7 (Except.ok textOnlyResponse)).1.error =
      some ("Model returned text instead of image: " ++ "cannot do that") :=
  ⟨by decide, by decide, rfl, rfl, rfl,
   ((generate_surfaces_no_image_errors uploadedState "make it neon" 7 textOnlyResponse
       { content := { parts := some [textOnlyPart] } }
       [] (by decide) (by decide) rfl rfl).1 "cannot do that" rfl).2⟩

/-- C4: when the API response carries an inline-image part, the client
returns the data URL `data:<mimeType>;base64,<payload>` built from the
first such part — defaulting the mime type to `image/png` when the
response omits it — and the generate attempt stores a result whose
`imageUrl` is that data URL and whose `prompt` is the input prompt. -/
theorem generate_success_stores_data_url (s : AppState) (prompt : String)
    (now : Nat) (resp : ApiResponse) (c : Candidate) (cs : List Candidate)
    (pre rest : List Part) (part : Part) (d : InlineData)
    (himg : s.originalImage.getD "" ≠ "") (hp : jsTrim prompt ≠ "")
    (hc : resp.candidates = c :: cs)
    (hparts : c.content.parts.getD [] = pre ++ part :: rest)
    (hpre : ∀ q ∈ pre, q.inlineData = none)
    (hpart : part.inlineData = some d) :
    editImageWithGemini ((extractBase64Data (s.originalImage.getD "")).getD "")
        s.originalMimeType prompt (Except.ok resp) =
      .ok ("data:" ++ jsOr d.mimeType "image/png" ++ ";base64," ++ d.data) ∧
    (handleGenerate s prompt now (Except.ok resp)).1.generatedImage =
      some { imageUrl := "data:" ++ jsOr d.mimeType "image/png" ++ ";base64," ++ d.data
             prompt := prompt
             timestamp := now } ∧
    (d.mimeType = none → jsOr d.mimeType "image/png" = "image/png") := by
  have hfind := @findImageUrl_first pre part rest d hpre hpart
  have hedit : editImageWithGemini
      ((extractBase64Data (s.originalImage.getD "")).getD "")
      s.originalMimeType prompt (Except.ok resp) =
      .ok ("data:" ++ jsOr d.mimeType "image/png" ++ ";base64," ++ d.data) := by
    simp [editImageWithGemini, hc, hparts, hfind]
  refine ⟨hedit, ?_, ?_⟩
  · rw [handleGenerate_active s prompt now (Except.ok resp) himg hp, hedit]
  · intro h
    simp [jsOr, h]

/-- The inline data of `imageResponse`: image bytes, no mime type. -/
def imageInline : InlineData := { data := "SU1H", mimeType := none }

/-- The single image part of `imageResponse`. -/
def imagePart : Part := { inlineData := some imageInline, text := none }

/-- A response whose single content part carries inline image data
with no mime type. -/
def imageResponse : ApiResponse :=
  { candidates := [{ content := { parts := some [imagePart] } }] }

theorem generate_success_stores_data_url_witness :
    uploadedState.originalImage.getD "" ≠ "" ∧ jsTrim "make it neon" ≠ "" ∧
    (handleGenerate uploadedState "make it neon" 7 (Except.ok imageResponse)).1.generatedImage =
      some { imageUrl := "data:" ++ jsOr imageInline.mimeType "image/png" ++ ";base64," ++ imageInline.data
             prompt := "make it neon"
             timestamp := 7 } :=
  ⟨by decide, by decide,
   (generate_success_stores_data_url uploadedState "make it neon" 7 imageResponse
       { content := { parts := some [imagePart] } }
       [] [] [] imagePart imageInline
       (by decide) (by decide) rfl rfl (by intro q hq; exact absurd hq (List.not_mem_nil q)) rfl).2.1⟩

/-- A state holding the result of an earlier successful attempt. -/
def stateWithPriorResult : AppState :=
  { originalImage := some "data:image/png;base64,QUJD"
    originalMimeType := "image/png"
    isGenerating := false
    generatedImage := some { imageUrl := "data:image/png;base64,RUZH", prompt := "old", timestamp := 5 }
    error := none }

/-- C1 counterexample: a new generate attempt does *not* clear the
prior result before starting (only the error), so after a completed
failed attempt both the error and a `GeneratedResult` are set. -/
theorem generate_attempt_keeps_prior_result_cex :
    (generateStart stateWithPriorResult).generatedImage ≠ none ∧
    (handleGenerate stateWithPriorResult "edit" 9 (Except.error "boom")).1.error ≠ none ∧
    (handleGenerate stateWithPriorResult "edit" 9 (Except.error "boom")).1.generatedImage ≠ none := by
  decide

/-- C1 (amended): a new generate attempt clears the error message but
preserves the prior `GeneratedResult` before starting; after a
completed attempt the error and the result *of that attempt* are
mutually exclusive — on success the error is cleared, on failure the
error is set while the result is whatever the pre-state held, so a new
error may coexist with a result from an earlier attempt. -/
theorem generate_clears_error_not_result (s : AppState) (prompt : String)
    (now : Nat) (outcome : Except String ApiResponse)
    (himg : s.originalImage.getD "" ≠ "") (hp : jsTrim prompt ≠ "") :
    ((generateStart s).error = none ∧ (generateStart s).generatedImage = s.generatedImage) ∧
    (∀ url, editImageWithGemini ((extractBase64Data (s.originalImage.getD "")).getD "")
        s.originalMimeType prompt outcome = .ok url →
      (handleGenerate s prompt now outcome).1.error = none) ∧
    (∀ m, editImageWithGemini ((extractBase64Data (s.originalImage.getD "")).getD "")
        s.originalMimeType prompt outcome = .error m →
      (handleGenerate s prompt now outcome).1.error ≠ none ∧
      (handleGenerate s prompt now outcome).1.generatedImage = s.generatedImage) := by
  refine ⟨⟨rfl, rfl⟩, ?_, ?_⟩
  · intro url hok
    rw [handleGenerate_active s prompt now outcome himg hp, hok]
    rfl
  · intro m herr
    rw [handleGenerate_active s prompt now outcome himg hp, herr]
    exact ⟨by simp, rfl⟩

theorem generate_clears_error_not_result_witness :
    uploadedState.originalImage.getD "" ≠ "" ∧ jsTrim "edit" ≠ "" ∧
    editImageWithGemini ((extractBase64Data (uploadedState.originalImage.getD "")).getD "")
        uploadedState.originalMimeType "edit" (Except.error "boom") = .error "boom" ∧
    ((handleGenerate uploadedState "edit" 3 (Except.error "boom")).1.error ≠ none ∧
     (handleGenerate uploadedState "edit" 3 (Except.error "boom")).1.generatedImage =
       uploadedState.generatedImage) :=
  ⟨by decide, by decide, rfl,
   (generate_clears_error_not_result uploadedState "edit" 3 (Except.error "boom")
       (by decide) (by decide)).2.2 "boom" rfl⟩

/-- C2 counterexample: on `"a,b,c"` the code returns the field between
the first and second comma (`"b"`), not the entire substring after the
first comma (`"b,c"`). -/
theorem extractPayload_not_entire_suffix_cex :
    extractBase64Data "a,b,c" = some "b" ∧
    (suffixAfterFirstComma ("a,b,c".data)).map String.mk = some "b,c" ∧
    some ("b" : String) ≠ some ("b,c" : String) := by
  decide

/-- C2 (amended): `extractBase64Data` returns the second
comma-separated field — the substring after the first comma up to the
next comma; whenever the remainder after the first comma contains no
further comma (as in a well-formed data URL, whose base64 payload is
comma-free) this coincides with the entire substring after the first
comma. -/
theorem extractPayload_second_field (pre post : List Char)
    (hpre : ',' ∉ pre) (hpost : ',' ∉ post) :
    extractBase64Data (String.mk (pre ++ ',' :: post)) = some (String.mk post) ∧
    suffixAfterFirstComma (pre ++ ',' :: post) = some post :=
  ⟨extractBase64Data_single_comma hpre hpost, suffixAfterFirstComma_append hpre⟩

theorem extractPayload_second_field_witness :
    (',' ∉ ("data:image/png;base64".data) ∧ ',' ∉ ("QUJD".data)) ∧
    extractBase64Data (String.mk ("data:image/png;base64".data ++ ',' :: "QUJD".data)) =
      some (String.mk "QUJD".data) ∧
    suffixAfterFirstComma ("data:image/png;base64".data ++ ',' :: "QUJD".data) =
      some "QUJD".data :=
  ⟨⟨by decide, by decide⟩,
   extractPayload_second_field "data:image/png;base64".data "QUJD".data
     (by decide) (by decide)⟩

/-- C8: extracting the payload of the data URL produced for a byte
sequence recovers the original base64 encoding of those bytes, for any
mime type free of commas (in particular the three allowed upload
types). -/
theorem extractPayload_toDataUrl_roundtrip (mime : String) (bytes : List Nat)
    (h : ',' ∉ mime.data) :
    extractBase64Data (toDataUrl mime bytes) = some (String.mk (base64Encode bytes)) := by
  have hpre : ',' ∉ ("data:".data ++ mime.data ++ ";base64".data) := by
    intro hmem
    rcases List.mem_append.mp hmem with hmem | hmem
    · rcases List.mem_append.mp hmem with hmem | hmem
      · exact absurd hmem (by decide)
      · exact h hmem
    · exact absurd hmem (by decide)
  simpa [toDataUrl] using
    extractBase64Data_single_comma hpre (comma_notMem_base64Encode bytes)

theorem extractPayload_toDataUrl_roundtrip_witness :
    ',' ∉ ("image/png" : String).data ∧
    extractBase64Data (toDataUrl "image/png" [77, 97, 110]) =
      some (String.mk (base64Encode [77, 97, 110])) :=
  ⟨by decide,
   extractPayload_toDataUrl_roundtrip "image/png" [77, 97, 110] (by decide)⟩

end HeroForge
